import Mathlib

/-
Verification development for the llm-event-hooks library.

Shallow embedding of the two hard-core subsystems:
  * the StreamBuffer accumulation state machine (src/streaming/StreamBuffer.ts),
  * the priority-ordered hook dispatch engine
    (src/core/HookManager.ts and src/core/EventEmitter.ts),
  * the BufferManager orchestrator (src/streaming/BufferManager.ts).

Timestamps are modelled as natural-number milliseconds (JS Date.getTime()).
Clock reads are passed explicitly as a `now` argument.  JS subtraction of
timestamps is modelled by truncated Nat subtraction; clocks are monotone so
the truncation never differs from the source on reachable inputs.
-/

namespace LLMHooks

/-- Flush reasons of StreamBuffer.ts: the shouldFlush hint uses the subset
size | time | hybrid; flush additionally accepts the manual reason. -/
inductive FlushReason
  | size
  | time
  | hybrid
  | manual
deriving DecidableEq, Repr

/-- The strategy field of StreamBufferConfig (events/types.ts, lines 142-147). -/
inductive Strategy
  | size
  | time
  | hybrid
deriving DecidableEq, Repr

/-- StreamBufferConfig from events/types.ts: maxSize, maxTime (ms), strategy,
enableMetrics. -/
structure StreamBufferConfig where
  maxSize : Nat
  maxTime : Nat
  strategy : Strategy
  enableMetrics : Bool
deriving DecidableEq, Repr

/-- Chunk from events/types.ts (lines 70-78).  The open-ended metadata map and
the optional sequenceId are not used by any buffering decision and are left
out of the embedding; all fields the buffer logic reads are present. -/
structure Chunk where
  id : String
  content : String
  index : Nat
  timestamp : Nat
  isComplete : Bool
deriving DecidableEq, Repr

/-- The mutable state of one StreamBuffer (StreamBuffer.ts, fields at lines
20-34).  The timer handle and the metrics accumulators that no claim touches
(totalProcessingTime) are omitted. -/
structure StreamBuffer where
  id : String
  config : StreamBufferConfig
  chunks : List Chunk
  createdAt : Nat
  lastChunkTime : Nat
  isActive : Bool
  totalChunksAdded : Nat
  totalFlushes : Nat
deriving DecidableEq, Repr

/-- StreamBuffer.shouldFlush (StreamBuffer.ts, lines 161-193).  Returns the
reason when a flush is due, none otherwise.  The hybrid thresholds
maxSize * 0.7 and maxTime * 0.5 are rendered with exact rational arithmetic
(10 * len vs 7 * maxSize, 2 * elapsed vs maxTime); no claim exercises the
float rounding of those two products at an exact boundary. -/
def StreamBuffer.shouldFlush (s : StreamBuffer) (now : Nat) : Option FlushReason :=
  let age := now - s.createdAt
  let timeSinceLastChunk := now - s.lastChunkTime
  if s.chunks.length ≥ s.config.maxSize then
    some .size
  else if s.config.strategy = .time ∧ age ≥ s.config.maxTime then
    some .time
  else if s.config.strategy = .hybrid then
    if age ≥ s.config.maxTime then
      some .hybrid
    else if 10 * s.chunks.length ≥ 7 * s.config.maxSize ∧
        2 * timeSinceLastChunk ≥ s.config.maxTime then
      some .hybrid
    else
      none
  else
    none

/-- The value addChunk / addChunks return (StreamBuffer.ts, lines 71-75). -/
structure AddChunkResult where
  shouldFlush : Bool
  flushReason : Option FlushReason
  bufferedChunks : Nat
deriving DecidableEq, Repr

/-- One synchronous addChunk call: the successor state, the returned record,
and whether the call queued a setImmediate(() => this.flush(reason)) callback
(StreamBuffer.ts, lines 97-102). -/
structure AddChunkStep where
  state : StreamBuffer
  result : AddChunkResult
  scheduledFlush : Bool

/-- StreamBuffer.addChunk (StreamBuffer.ts, lines 71-112).  On an inactive
buffer it returns { shouldFlush: false, bufferedChunks: 0 } and changes
nothing; otherwise it appends the chunk, bumps totalChunksAdded, sets
lastChunkTime, evaluates shouldFlush and, when the check fires, schedules an
asynchronous flush of itself. -/
def StreamBuffer.addChunk (s : StreamBuffer) (c : Chunk) (now : Nat) : AddChunkStep :=
  if s.isActive = false then
    ⟨s, ⟨false, none, 0⟩, false⟩
  else
    let s1 : StreamBuffer :=
      { s with
        chunks := s.chunks ++ [c]
        totalChunksAdded := s.totalChunksAdded + 1
        lastChunkTime := now }
    let check := s1.shouldFlush now
    ⟨s1, ⟨check.isSome, check, s1.chunks.length⟩, check.isSome⟩

/-- StreamBuffer.addChunks (StreamBuffer.ts, lines 115-158): pushes every
chunk, bumps the counter per chunk, then updates lastChunkTime once and runs
a single shouldFlush check. -/
def StreamBuffer.addChunks (s : StreamBuffer) (cs : List Chunk) (now : Nat) : AddChunkStep :=
  if s.isActive = false then
    ⟨s, ⟨false, none, 0⟩, false⟩
  else
    let s1 : StreamBuffer :=
      { s with
        chunks := s.chunks ++ cs
        totalChunksAdded := s.totalChunksAdded + cs.length
        lastChunkTime := now }
    let check := s1.shouldFlush now
    ⟨s1, ⟨check.isSome, check, s1.chunks.length⟩, check.isSome⟩

/-- StreamBuffer.flush (StreamBuffer.ts, lines 196-300).  The flush-hook
pipeline (the onFlush handler, or BufferFlushEvent.processBufferFlush) is
passed in as a function from the flushed slice to either the processed
chunks or a thrown error.  On an inactive or empty buffer flush returns []
and changes nothing; on success the chunk list is cleared and totalFlushes
incremented; when the pipeline throws, the chunk list is still cleared
(line 297) and the error is rethrown. -/
def StreamBuffer.flush (s : StreamBuffer)
    (pipeline : List Chunk → Except String (List Chunk)) :
    StreamBuffer × Except String (List Chunk) :=
  if s.isActive = false ∨ s.chunks.length = 0 then
    (s, .ok [])
  else
    match pipeline s.chunks with
    | .ok processed =>
        ({ s with chunks := [], totalFlushes := s.totalFlushes + 1 }, .ok processed)
    | .error e =>
        ({ s with chunks := [] }, .error e)

/-- The flush pipeline when no buffer:flush hook is registered: the dispatcher
returns the event data unchanged, so the flushed slice comes back as is. -/
def idPipeline : List Chunk → Except String (List Chunk) := fun cs => .ok cs

/-- Composition of one addChunk call with the event loop then running the
setImmediate callback that the call itself queued (StreamBuffer.ts, lines
97-102): if addChunk requested a flush, that flush runs on the post-add
state with no further caller involvement. -/
def StreamBuffer.addChunkThenScheduled (s : StreamBuffer) (c : Chunk) (now : Nat)
    (pipeline : List Chunk → Except String (List Chunk)) :
    StreamBuffer × Except String (List Chunk) :=
  let step := s.addChunk c now
  if step.scheduledFlush then step.state.flush pipeline else (step.state, .ok [])

/-- StreamBuffer.pause (StreamBuffer.ts, lines 411-420): marks the buffer
inactive (the timer teardown has no observable effect in this model). -/
def StreamBuffer.pause (s : StreamBuffer) : StreamBuffer :=
  { s with isActive := false }

/-- StreamBuffer.clear (StreamBuffer.ts, lines 398-408): empties the chunk
list without flushing and returns the removed chunks. -/
def StreamBuffer.clear (s : StreamBuffer) : StreamBuffer × List Chunk :=
  ({ s with chunks := [] }, s.chunks)

/-- StreamBuffer.destroy (StreamBuffer.ts, lines 437-448): pause, then clear,
returning the unflushed remainder. -/
def StreamBuffer.destroy (s : StreamBuffer) : StreamBuffer × List Chunk :=
  (s.pause.clear.1, s.pause.clear.2)

/-- Failure kinds a hook invocation can produce: a thrown error, or losing the
race against the per-hook timeout budget (HookManager.executeWithTimeout
rejects with a timed-out Error, which lands in the same catch block as a
thrown error). -/
inductive ErrKind
  | thrown
  | timeout
deriving DecidableEq, Repr, BEq

/-- Outcome of one hook invocation on the current payload: a normal return
(some value replaces the payload, none models returning undefined), or a
failure.  A timeout outcome only arises for registrations carrying a
timeoutMs budget; when the race is lost, the late return value of the
underlying callback is discarded (the promise has already rejected), which is
why the timeout outcome carries no value. -/
inductive HookOutcome (P : Type)
  | ok (ret : Option P)
  | err (k : ErrKind)

/-- One entry of the per-event registration array (HookManager.ts, lines
14-21): id, priority, the one-time flag, the optional timeout budget, and the
callback.  The callback is modelled as a function from the current payload to
its (possibly raced) outcome; the metadata record is not read by the engine
and is omitted. -/
structure HookReg (P : Type) where
  id : String
  priority : Int
  oneTime : Bool
  timeoutMs : Option Nat
  run : P → HookOutcome P

/-- One entry of the execution report error list: which hook failed and
whether the failure was the timeout race (HookError in types; the engine
records the timed-out rejection through the same path as a thrown error). -/
structure HookError where
  hookId : String
  timedOut : Bool
deriving DecidableEq, Repr

/-- unregisterHookById (HookManager.ts, lines 211-229): findIndex by id, then
splice(index, 1) — remove the first registration whose id matches. -/
def eraseById {P : Type} (regs : List (HookReg P)) (hookId : String) : List (HookReg P) :=
  regs.eraseP (fun r => r.id == hookId)

/-- The dispatch loop of HookManager.executeHooksWithMonitoring (lines
277-341) and HookableEventEmitter.executeHooks (lines 120-165).  Both iterate
the LIVE registration array with a for-of loop (an index-based iterator that
re-reads the array on every step), so the loop is modelled by an explicit
index i into the current list.  A one-time registration unregisters itself by
id when its callback completes, successfully or not (registerOneTimeHook,
lines 153-169), mutating the iterated array in place.  On success a returned
value replaces the payload and the id is appended to the executed list; on
failure the error is recorded and the loop continues with the payload
unchanged (exception isolation).  The fuel argument bounds the recursion; the
list never grows during a dispatch, so fuel equal to the initial length (as
supplied by executeHooks) is never exhausted. -/
def execFrom {P : Type} :
    Nat → List (HookReg P) → Nat → P → List String → List HookError →
    List (HookReg P) × P × List String × List HookError
  | 0, regs, _, p, succ, errs => (regs, p, succ, errs)
  | fuel + 1, regs, i, p, succ, errs =>
    if h : i < regs.length then
      let r := regs.get ⟨i, h⟩
      match r.run p with
      | .ok ret =>
          execFrom fuel (if r.oneTime then eraseById regs r.id else regs) (i + 1)
            (ret.getD p) (succ ++ [r.id]) errs
      | .err k =>
          execFrom fuel (if r.oneTime then eraseById regs r.id else regs) (i + 1)
            p succ (errs ++ [⟨r.id, k == .timeout⟩])
    else
      (regs, p, succ, errs)

/-- The execution report of one dispatch (HookExecutionResult), together with
the registration array as the dispatch leaves it. -/
structure ExecResult (P : Type) where
  finalRegs : List (HookReg P)
  modifiedData : P
  executedIds : List String
  errors : List HookError
  hookCount : Nat

/-- HookManager.executeHooksWithMonitoring (lines 253-356): run the loop from
index 0 over the live registration array and package the report. -/
def executeHooks {P : Type} (regs : List (HookReg P)) (p : P) : ExecResult P :=
  let out := execFrom regs.length regs 0 p [] []
  { finalRegs := out.1
    modifiedData := out.2.1
    executedIds := out.2.2.1
    errors := out.2.2.2
    hookCount := regs.length }

/-- Modelled from the spec: the snapshot dispatch semantics of spec section
4.2 — every registration present at dispatch start is processed exactly once,
in list order, on the running payload; failures are isolated and recorded.
This reference definition is compared against the engine above. -/
def dispatchSnapshot {P : Type} : List (HookReg P) → P → P × List String × List HookError
  | [], p => (p, [], [])
  | r :: rs, p =>
    match r.run p with
    | .ok ret =>
        let rest := dispatchSnapshot rs (ret.getD p)
        (rest.1, r.id :: rest.2.1, rest.2.2)
    | .err k =>
        let rest := dispatchSnapshot rs p
        (rest.1, rest.2.1, ⟨r.id, k == .timeout⟩ :: rest.2.2)

/-- One registry entry as registerHook of EventEmitter.ts (lines 62-86)
creates it: the id string hook-n is identified with the counter value n drawn
from nextHookId, and the priority.  The callback is attached separately when
the entry is lifted into the engine. -/
structure RegEntry where
  seq : Nat
  priority : Int
deriving DecidableEq, Repr

/-- Stable insertion of a new entry into a priority-ordered list: the new
entry is placed after every entry of priority less than or equal to its own.
Array.prototype.sort with comparator (a, b) => a.priority - b.priority is a
stable sort, and registerHook always sorts an array that was already sorted
before the push, so the sort is exactly this insertion of the pushed entry. -/
def insertReg (x : RegEntry) : List RegEntry → List RegEntry
  | [] => [x]
  | y :: ys => if x.priority < y.priority then x :: y :: ys else y :: insertReg x ys

/-- Stable sort by priority, processing the array left to right; this is the
behaviour of the stable Array.prototype.sort used at EventEmitter.ts line 78
and HookManager.ts lines 114 and 189. -/
def sortReg (l : List RegEntry) : List RegEntry :=
  l.foldl (fun acc y => insertReg y acc) []

/-- The registry state of HookableEventEmitter restricted to one event kind:
the registration array and the nextHookId counter (EventEmitter.ts, lines
13-14; the counter starts at 1). -/
structure RegistryState where
  regs : List RegEntry
  nextHookId : Nat
deriving DecidableEq, Repr

/-- HookableEventEmitter.registerHook (EventEmitter.ts, lines 62-86): build
the registration with the next counter id, push it and sort by priority. -/
def registerHook (st : RegistryState) (priority : Int) : RegistryState :=
  { regs := sortReg (st.regs ++ [⟨st.nextHookId, priority⟩])
    nextHookId := st.nextHookId + 1 }

/-- A sequence of registerHook calls against a fresh emitter, given the
priorities in call order. -/
def registerAll (ps : List Int) : RegistryState :=
  ps.foldl registerHook ⟨[], 1⟩

/-- The entries a call sequence would create, in call order, counting ids
from n. -/
def arrivalsFrom : Nat → List Int → List RegEntry
  | _, [] => []
  | n, p :: ps => ⟨n, p⟩ :: arrivalsFrom (n + 1) ps

/-- Strict order on registry entries: earlier priority first, ties resolved
by the registration counter. -/
def regOrdered (a b : RegEntry) : Prop :=
  a.priority < b.priority ∨ (a.priority = b.priority ∧ a.seq < b.seq)

/-- Lift a registry entry into the dispatch engine with a harmless callback,
to observe the order in which a dispatch visits the registrations. -/
def toEngineReg (e : RegEntry) : HookReg Unit :=
  { id := "hook-" ++ toString e.seq
    priority := e.priority
    oneTime := false
    timeoutMs := none
    run := fun _ => .ok none }

/-- One entry of the BufferManager map (BufferManager.ts, BufferInfo at lines
17-24): the id, creation time, and last-activity time.  The owned
StreamBuffer and the metadata are not read by the create and cleanup logic
modelled here. -/
structure BufferEntry where
  id : String
  createdAt : Nat
  lastActivity : Nat
deriving DecidableEq, Repr

/-- BufferManager state for the create and cleanup paths: the insertion
ordered buffer map and the two configuration fields those paths read. -/
structure BufferManagerState where
  buffers : List BufferEntry
  maxBuffers : Nat
  cleanupAge : Nat
deriving DecidableEq, Repr

/-- The eviction test of BufferManager.cleanup (line 338): remove when the
total age exceeds cleanupAge, or the inactive time exceeds cleanupAge / 2.
For integer timestamps the JS comparison against the possibly fractional
cleanupAge / 2 coincides with comparison against its floor. -/
def evictTest (cleanupAge now : Nat) (b : BufferEntry) : Bool :=
  decide (now - b.createdAt > cleanupAge) || decide (now - b.lastActivity > cleanupAge / 2)

/-- BufferManager.cleanup (BufferManager.ts, lines 325-368): destroy and drop
every buffer satisfying the eviction test. -/
def cleanup (m : BufferManagerState) (now : Nat) : BufferManagerState :=
  { m with buffers := m.buffers.filter (fun b => !(evictTest m.cleanupAge now b)) }

/-- The two errors createBuffer can throw. -/
inductive CreateError
  | duplicate
  | capacity
deriving DecidableEq, Repr

/-- BufferManager.createBuffer (BufferManager.ts, lines 70-130): reject a
duplicate id; at the buffer limit run one cleanup pass and reject with the
capacity error if the map is still at the limit; otherwise insert the new
entry with both timestamps set to now. -/
def createBuffer (m : BufferManagerState) (id : String) (now : Nat) :
    Except CreateError BufferManagerState :=
  if m.buffers.any (fun b => b.id == id) then
    .error .duplicate
  else if m.buffers.length ≥ m.maxBuffers then
    let m1 := cleanup m now
    if m1.buffers.length ≥ m.maxBuffers then
      .error .capacity
    else
      .ok { m1 with buffers := m1.buffers ++ [⟨id, now, now⟩] }
  else
    .ok { m with buffers := m.buffers ++ [⟨id, now, now⟩] }

section EngineLemmas

set_option maxRecDepth 8000

variable {P : Type}

/-- When no registration is one-time, the live array is never mutated and the
index loop from position i computes the snapshot dispatch of the remaining
suffix, accumulating onto the given report lists. -/
theorem execFrom_no_oneTime :
    ∀ (fuel : Nat) (regs : List (HookReg P)) (i : Nat) (p : P)
      (succ : List String) (errs : List HookError),
      regs.length ≤ fuel + i → (∀ r ∈ regs, r.oneTime = false) →
      execFrom fuel regs i p succ errs =
        (regs, (dispatchSnapshot (regs.drop i) p).1,
          succ ++ (dispatchSnapshot (regs.drop i) p).2.1,
          errs ++ (dispatchSnapshot (regs.drop i) p).2.2) := by
  intro fuel
  induction fuel with
  | zero =>
    intro regs i p succ errs hle _
    have hdrop : regs.drop i = [] := List.drop_eq_nil_of_le (by omega)
    simp [execFrom, hdrop, dispatchSnapshot, Nat.lt_of_lt_of_le, show ¬ i < regs.length by omega]
  | succ fuel ih =>
    intro regs i p succ errs hle hone
    by_cases h : i < regs.length
    · have hmem : regs[i] ∈ regs := List.getElem_mem h
      have hone_i : (regs[i]).oneTime = false := hone _ hmem
      have hdrop : regs.drop i = regs[i] :: regs.drop (i + 1) :=
        List.drop_eq_getElem_cons h
      cases hr : (regs[i]).run p with
      | ok ret =>
        have hrec := ih regs (i + 1) (ret.getD p) (succ ++ [(regs[i]).id]) errs
          (by omega) hone
        have hstep : execFrom (fuel + 1) regs i p succ errs =
            execFrom fuel regs (i + 1) (ret.getD p) (succ ++ [(regs[i]).id]) errs := by
          simp [execFrom, h, hr, hone_i]
        rw [hstep, hrec, hdrop]
        simp [dispatchSnapshot, hr, List.append_assoc]
      | err k =>
        have hrec := ih regs (i + 1) p succ
          (errs ++ [⟨(regs[i]).id, k == .timeout⟩]) (by omega) hone
        have hstep : execFrom (fuel + 1) regs i p succ errs =
            execFrom fuel regs (i + 1) p succ
              (errs ++ [⟨(regs[i]).id, k == .timeout⟩]) := by
          simp [execFrom, h, hr, hone_i]
        rw [hstep, hrec, hdrop]
        simp [dispatchSnapshot, hr, List.append_assoc]
    · have hdrop : regs.drop i = [] := List.drop_eq_nil_of_le (by omega)
      simp [execFrom, h, hdrop, dispatchSnapshot]

/-- For one-time-free registration lists, the dispatch engine realises the
snapshot semantics exactly. -/
theorem executeHooks_eq_snapshot (regs : List (HookReg P)) (p : P)
    (hone : ∀ r ∈ regs, r.oneTime = false) :
    executeHooks regs p =
      { finalRegs := regs
        modifiedData := (dispatchSnapshot regs p).1
        executedIds := (dispatchSnapshot regs p).2.1
        errors := (dispatchSnapshot regs p).2.2
        hookCount := regs.length } := by
  unfold executeHooks
  rw [execFrom_no_oneTime regs.length regs 0 p [] [] (by omega) hone]
  simp

/-- Snapshot dispatch accounts for every registration: one entry in the
executed list or one in the error list per registration. -/
theorem dispatchSnapshot_length (regs : List (HookReg P)) (p : P) :
    (dispatchSnapshot regs p).2.1.length + (dispatchSnapshot regs p).2.2.length
      = regs.length := by
  induction regs generalizing p with
  | nil => simp [dispatchSnapshot]
  | cons r rs ih =>
    cases hr : r.run p with
    | ok ret =>
      have hx := ih (ret.getD p)
      simp [dispatchSnapshot, hr]
      omega
    | err k =>
      have hx := ih p
      simp [dispatchSnapshot, hr]
      omega

/-- Every registration id surfaces in the snapshot report, among the executed
ids or among the failed ids. -/
theorem dispatchSnapshot_mem (regs : List (HookReg P)) (p : P) :
    ∀ r ∈ regs, r.id ∈ (dispatchSnapshot regs p).2.1 ∨
      r.id ∈ (dispatchSnapshot regs p).2.2.map HookError.hookId := by
  induction regs generalizing p with
  | nil => simp
  | cons q rs ih =>
    intro r hr
    cases hq : q.run p with
    | ok ret =>
      rcases List.mem_cons.mp hr with h | h
      · subst h; simp [dispatchSnapshot, hq]
      · rcases ih (ret.getD p) r h with h1 | h1
        · exact Or.inl (by simp [dispatchSnapshot, hq, h1])
        · exact Or.inr (by simp [dispatchSnapshot, hq] at *; tauto)
    | err k =>
      rcases List.mem_cons.mp hr with h | h
      · subst h; simp [dispatchSnapshot, hq]
      · rcases ih p r h with h1 | h1
        · exact Or.inl (by simp [dispatchSnapshot, hq, h1])
        · exact Or.inr (by simp [dispatchSnapshot, hq] at *; tauto)

end EngineLemmas

section SortLemmas

/-- Membership in a stable insertion is membership in the inserted element or
the original list. -/
theorem mem_insertReg {x a : RegEntry} :
    ∀ {l : List RegEntry}, a ∈ insertReg x l ↔ a = x ∨ a ∈ l := by
  intro l
  induction l with
  | nil => simp [insertReg]
  | cons y ys ih =>
    simp only [insertReg]
    split
    · simp [List.mem_cons]
    · simp only [List.mem_cons, ih]
      tauto

/-- Stable insertion is a permutation of consing. -/
theorem insertReg_perm (x : RegEntry) (l : List RegEntry) :
    (insertReg x l).Perm (x :: l) := by
  induction l with
  | nil => simp [insertReg]
  | cons y ys ih =>
    simp only [insertReg]
    split
    · exact List.Perm.refl _
    · exact (ih.cons y).trans (List.Perm.swap x y ys)

/-- Inserting an element whose priority dominates the whole list appends it
at the end. -/
theorem insertReg_of_le (x : RegEntry) :
    ∀ (l : List RegEntry), (∀ y ∈ l, y.priority ≤ x.priority) →
      insertReg x l = l ++ [x] := by
  intro l
  induction l with
  | nil => intro _; rfl
  | cons y ys ih =>
    intro hle
    have hy : y.priority ≤ x.priority := hle y (by simp)
    simp only [insertReg, if_neg (not_lt.mpr hy), List.cons_append]
    rw [ih (fun z hz => hle z (by simp [hz]))]

/-- The stable sort applied to a one-element extension is an insertion into
the sorted prefix. -/
theorem sortReg_append (l : List RegEntry) (x : RegEntry) :
    sortReg (l ++ [x]) = insertReg x (sortReg l) := by
  simp [sortReg, List.foldl_append]

/-- A list that is already in non-decreasing priority order is a fixed point
of the stable sort. -/
theorem sortReg_of_sorted :
    ∀ {l : List RegEntry},
      List.Pairwise (fun a b : RegEntry => a.priority ≤ b.priority) l →
      sortReg l = l := by
  intro l
  induction l using List.reverseRecOn with
  | nil => intro _; rfl
  | append_singleton l x ih =>
    intro hp
    rcases List.pairwise_append.mp hp with ⟨h1, _, h3⟩
    rw [sortReg_append, ih h1, insertReg_of_le x l (fun y hy => h3 y hy x (by simp))]

/-- Inserting a freshly numbered entry into a list ordered by priority then
sequence keeps the order: the new entry lands after every entry of less or
equal priority and before every strictly larger one. -/
theorem pairwise_insertReg {x : RegEntry} :
    ∀ {l : List RegEntry}, List.Pairwise regOrdered l →
      (∀ y ∈ l, y.seq < x.seq) → List.Pairwise regOrdered (insertReg x l) := by
  intro l
  induction l with
  | nil => intro _ _; simp [insertReg]
  | cons y ys ih =>
    intro hp hseq
    rcases List.pairwise_cons.mp hp with ⟨hy, hys⟩
    simp only [insertReg]
    split
    · rename_i hxy
      refine List.pairwise_cons.mpr ⟨?_, hp⟩
      intro z hz
      rcases List.mem_cons.mp hz with h | h
      · exact Or.inl (h ▸ hxy)
      · rcases hy z h with h1 | h1
        · exact Or.inl (lt_trans hxy h1)
        · exact Or.inl (lt_of_lt_of_le hxy (le_of_eq h1.1))
    · rename_i hxy
      refine List.pairwise_cons.mpr ⟨?_, ih hys (fun z hz => hseq z (by simp [hz]))⟩
      intro z hz
      rcases mem_insertReg.mp hz with h | h
      · subst h
        rcases lt_or_eq_of_le (not_lt.mp hxy) with h1 | h1
        · exact Or.inl h1
        · exact Or.inr ⟨h1, hseq y (by simp)⟩
      · exact hy z h

/-- The fold invariant for a run of registerHook calls: the registry stays
ordered by priority with counter tie-break, counters stay below the running
nextHookId, the registry is a permutation of everything registered, and the
counter advances once per call. -/
theorem registerAll_go :
    ∀ (ps : List Int) (st : RegistryState),
      List.Pairwise regOrdered st.regs →
      (∀ e ∈ st.regs, e.seq < st.nextHookId) →
      List.Pairwise regOrdered (ps.foldl registerHook st).regs ∧
      (∀ e ∈ (ps.foldl registerHook st).regs,
        e.seq < (ps.foldl registerHook st).nextHookId) ∧
      (ps.foldl registerHook st).regs.Perm
        (st.regs ++ arrivalsFrom st.nextHookId ps) ∧
      (ps.foldl registerHook st).nextHookId = st.nextHookId + ps.length := by
  intro ps
  induction ps with
  | nil =>
    intro st h1 h2
    exact ⟨h1, h2, by simp [arrivalsFrom], by simp⟩
  | cons q qs ih =>
    intro st h1 h2
    have hfix : sortReg st.regs = st.regs :=
      sortReg_of_sorted (h1.imp (fun hab => by
        rcases hab with h | h
        · exact le_of_lt h
        · exact le_of_eq h.1))
    have hregs1 : (registerHook st q).regs = insertReg ⟨st.nextHookId, q⟩ st.regs := by
      simp [registerHook, sortReg_append, hfix]
    have hpw1 : List.Pairwise regOrdered (registerHook st q).regs := by
      rw [hregs1]
      exact pairwise_insertReg h1 (fun y hy => h2 y hy)
    have hseq1 : ∀ e ∈ (registerHook st q).regs, e.seq < (registerHook st q).nextHookId := by
      intro e he
      rw [hregs1] at he
      rcases mem_insertReg.mp he with h | h
      · subst h; simp [registerHook]
      · have := h2 e h
        simp only [registerHook]
        omega
    rcases ih (registerHook st q) hpw1 hseq1 with ⟨g1, g2, g3, g4⟩
    have hnext : (registerHook st q).nextHookId = st.nextHookId + 1 := rfl
    refine ⟨g1, g2, ?_, ?_⟩
    · have hperm1 : (registerHook st q).regs.Perm (st.regs ++ [⟨st.nextHookId, q⟩]) := by
        rw [hregs1]
        exact (insertReg_perm _ _).trans (List.perm_append_singleton _ _).symm
      rw [hnext] at g3
      have hstep : (qs.foldl registerHook (registerHook st q)).regs.Perm
          ((st.regs ++ [⟨st.nextHookId, q⟩]) ++ arrivalsFrom (st.nextHookId + 1) qs) :=
        g3.trans (hperm1.append_right _)
      have harr : (st.regs ++ [(⟨st.nextHookId, q⟩ : RegEntry)]) ++
          arrivalsFrom (st.nextHookId + 1) qs =
          st.regs ++ arrivalsFrom st.nextHookId (q :: qs) := by
        simp [arrivalsFrom, List.append_assoc]
      rw [List.foldl_cons]
      exact harr ▸ hstep
    · rw [List.foldl_cons, g4, hnext]
      simp
      omega

/-- Lifting registry entries into the engine with harmless callbacks, the
snapshot dispatch just walks the list and records every id in order. -/
theorem dispatchSnapshot_engineRegs :
    ∀ (l : List RegEntry) (p : Unit),
      dispatchSnapshot (l.map toEngineReg) p =
        (p, l.map (fun e => "hook-" ++ toString e.seq), []) := by
  intro l
  induction l with
  | nil => intro p; rfl
  | cons e es ih =>
    intro p
    simp [dispatchSnapshot, toEngineReg, ih]

end SortLemmas

section ClaimC2

/-- Sample chunk created at time 0. -/
def c2Chunk1 : Chunk := ⟨"c1", "hello", 0, 0, false⟩

/-- Sample chunk created at time 120. -/
def c2Chunk2 : Chunk := ⟨"c2", "world", 1, 120, false⟩

/-- A time-strategy buffer constructed at time 0 holding one chunk,
maxSize 10, maxTime 100. -/
def c2TimeBuffer : StreamBuffer :=
  { id := "t"
    config := ⟨10, 100, .time, false⟩
    chunks := [c2Chunk1]
    createdAt := 0
    lastChunkTime := 0
    isActive := true
    totalChunksAdded := 1
    totalFlushes := 0 }

/-- A time-strategy buffer with maxSize 1 and maxTime 1000, holding one chunk
and aged 0 at the observation instant. -/
def c2SizeUnderTime : StreamBuffer :=
  { id := "t2"
    config := ⟨1, 1000, .time, false⟩
    chunks := [c2Chunk1]
    createdAt := 0
    lastChunkTime := 0
    isActive := true
    totalChunksAdded := 1
    totalFlushes := 0 }

/-- C2: counterexample.  Two deviations from the claim on one concrete run.
First, flushing c2TimeBuffer empties it, and the only unflushed chunk is
then added at time 120, so the age of the oldest unflushed chunk batch is
120 - 120 = 0 < maxTime = 100; the claim therefore predicts no flush signal,
yet addChunk reports shouldFlush with reason time, because the code measures
age from the construction-time createdAt, which a flush never resets.
Second, c2SizeUnderTime has strategy time and age 0 < maxTime = 1000, yet its
flush predicate fires with reason size as soon as the chunk count reaches
maxSize, contradicting the claim that no condition other than the age makes a
time-strategy buffer signal flush. -/
theorem c2_counterexample :
    ((c2TimeBuffer.flush idPipeline).1.addChunk c2Chunk2 120).result.shouldFlush = true ∧
    ((c2TimeBuffer.flush idPipeline).1.addChunk c2Chunk2 120).result.flushReason
      = some .time ∧
    (c2TimeBuffer.flush idPipeline).1.chunks = [] ∧
    (120 : Nat) - c2Chunk2.timestamp < 100 ∧
    c2SizeUnderTime.shouldFlush 0 = some .size ∧
    (0 : Nat) - c2SizeUnderTime.createdAt < 1000 := by
  refine ⟨rfl, rfl, rfl, by decide, rfl, by decide⟩

/-- C2 (amended): under strategy time the flush predicate fires with reason
size exactly when the post-state chunk count has reached maxSize, and
otherwise fires with reason time exactly when now - createdAt has reached
maxTime, where createdAt is the construction time of the buffer and is never
reset by a flush (the age does not restart when a flush empties the buffer). -/
theorem c2_amended (s : StreamBuffer) (now : Nat)
    (hS : s.config.strategy = .time) :
    s.shouldFlush now =
      (if s.chunks.length ≥ s.config.maxSize then some .size
       else if now - s.createdAt ≥ s.config.maxTime then some .time
       else none) ∧
    ∀ pl, ((s.flush pl).1).createdAt = s.createdAt := by
  constructor
  · by_cases h1 : s.chunks.length ≥ s.config.maxSize
    · simp [StreamBuffer.shouldFlush, hS, h1]
    · by_cases h2 : now - s.createdAt ≥ s.config.maxTime
      · simp [StreamBuffer.shouldFlush, hS, h1, h2]
      · simp [StreamBuffer.shouldFlush, hS, h1, h2]
  · intro pl
    unfold StreamBuffer.flush
    split
    · rfl
    · cases pl s.chunks <;> rfl

/-- C2: witness for the amended theorem at a concrete time-strategy buffer. -/
theorem c2_witness :
    c2TimeBuffer.config.strategy = .time ∧
    (c2TimeBuffer.shouldFlush 120 =
      (if c2TimeBuffer.chunks.length ≥ c2TimeBuffer.config.maxSize then some .size
       else if 120 - c2TimeBuffer.createdAt ≥ c2TimeBuffer.config.maxTime then some .time
       else none) ∧
    ∀ pl, ((c2TimeBuffer.flush pl).1).createdAt = c2TimeBuffer.createdAt) :=
  ⟨rfl, c2_amended c2TimeBuffer 120 rfl⟩

end ClaimC2

section ClaimC3

/-- An empty active size-strategy buffer with maxSize 1. -/
def c3Buffer : StreamBuffer :=
  { id := "s"
    config := ⟨1, 1000, .size, false⟩
    chunks := []
    createdAt := 0
    lastChunkTime := 0
    isActive := true
    totalChunksAdded := 0
    totalFlushes := 0 }

/-- Sample chunk for the C3 run. -/
def c3Chunk : Chunk := ⟨"c", "x", 0, 5, false⟩

/-- C3: counterexample.  Adding one chunk to c3Buffer makes addChunk itself
queue a setImmediate flush callback (StreamBuffer.ts lines 97-102); once the
event loop runs that callback, the chunk list is drained with no flush call
from any caller.  This refutes the claim that the chunk list is drained only
by an explicit flush call made by the caller and never by addChunk triggering
a flush on its own. -/
theorem c3_counterexample :
    (c3Buffer.addChunk c3Chunk 5).scheduledFlush = true ∧
    (c3Buffer.addChunk c3Chunk 5).state.chunks = [c3Chunk] ∧
    (StreamBuffer.addChunkThenScheduled c3Buffer c3Chunk 5 idPipeline).1.chunks = [] ∧
    (StreamBuffer.addChunkThenScheduled c3Buffer c3Chunk 5 idPipeline).2
      = .ok [c3Chunk] :=
  ⟨rfl, rfl, rfl, rfl⟩

/-- C3 (amended): on an active buffer the synchronous effect of addChunk is
exactly to append the chunk, update lastChunkAt and the added counter,
evaluate the flush predicate and return the hint — it never drains the chunk
list synchronously and touches no other state — but whenever the hint fires,
addChunk itself also schedules an asynchronous flush (setImmediate), so
draining is not performed only by caller-invoked flush calls. -/
theorem c3_amended (s : StreamBuffer) (c : Chunk) (now : Nat)
    (hA : s.isActive = true) :
    (s.addChunk c now).state.chunks = s.chunks ++ [c] ∧
    (s.addChunk c now).state.lastChunkTime = now ∧
    (s.addChunk c now).state.totalChunksAdded = s.totalChunksAdded + 1 ∧
    (s.addChunk c now).state.createdAt = s.createdAt ∧
    (s.addChunk c now).state.totalFlushes = s.totalFlushes ∧
    (s.addChunk c now).state.isActive = true ∧
    (s.addChunk c now).result.bufferedChunks = s.chunks.length + 1 ∧
    (s.addChunk c now).result.shouldFlush
      = ((s.addChunk c now).state.shouldFlush now).isSome ∧
    (s.addChunk c now).result.flushReason = (s.addChunk c now).state.shouldFlush now ∧
    (s.addChunk c now).scheduledFlush = (s.addChunk c now).result.shouldFlush := by
  simp [StreamBuffer.addChunk, hA]

/-- C3: witness for the amended theorem at a concrete active buffer. -/
theorem c3_witness :
    c3Buffer.isActive = true ∧
    ((c3Buffer.addChunk c3Chunk 5).state.chunks = c3Buffer.chunks ++ [c3Chunk] ∧
     (c3Buffer.addChunk c3Chunk 5).scheduledFlush
       = (c3Buffer.addChunk c3Chunk 5).result.shouldFlush) :=
  ⟨rfl, (c3_amended c3Buffer c3Chunk 5 rfl).1,
    (c3_amended c3Buffer c3Chunk 5 rfl).2.2.2.2.2.2.2.2.2⟩

end ClaimC3

section ClaimC7

/-- C7: after any completed flush of an active, non-empty buffer the chunk
list is empty, no matter whether the flush-hook pipeline returned processed
chunks or threw; a second flush in immediate succession is a state no-op
returning the empty list; and nothing is requeued after a failed flush — the
cleared list stays cleared. -/
theorem c7_flush_clears (s : StreamBuffer)
    (pl1 pl2 : List Chunk → Except String (List Chunk))
    (hA : s.isActive = true) (hNE : s.chunks ≠ []) :
    ((s.flush pl1).1).chunks = [] ∧
    ((s.flush pl1).1.flush pl2).2 = .ok [] ∧
    ((s.flush pl1).1.flush pl2).1 = (s.flush pl1).1 := by
  have hcond : ¬ (s.isActive = false ∨ s.chunks.length = 0) := by
    simp [hA, hNE]
  have hempty : ∀ (t : StreamBuffer) (pl : List Chunk → Except String (List Chunk)),
      t.chunks = [] → t.flush pl = (t, .ok []) := by
    intro t pl h
    unfold StreamBuffer.flush
    rw [if_pos (Or.inr (by simp [h]))]
  have h1 : ((s.flush pl1).1).chunks = [] := by
    unfold StreamBuffer.flush
    rw [if_neg hcond]
    cases pl1 s.chunks <;> rfl
  have h2 := hempty ((s.flush pl1).1) pl2 h1
  exact ⟨h1, by rw [h2], by rw [h2]⟩

/-- C7: witness, exercising the failing-pipeline path on a concrete buffer. -/
theorem c7_witness :
    c2TimeBuffer.isActive = true ∧ c2TimeBuffer.chunks ≠ [] ∧
    (((c2TimeBuffer.flush (fun _ => .error "boom")).1).chunks = [] ∧
     ((c2TimeBuffer.flush (fun _ => .error "boom")).1.flush idPipeline).2 = .ok []) := by
  refine ⟨rfl, by simp [c2TimeBuffer], ?_, ?_⟩
  · exact (c7_flush_clears c2TimeBuffer (fun _ => .error "boom") idPipeline rfl
      (by simp [c2TimeBuffer])).1
  · exact (c7_flush_clears c2TimeBuffer (fun _ => .error "boom") idPipeline rfl
      (by simp [c2TimeBuffer])).2.1

end ClaimC7

section ClaimC8

/-- Size-strategy configuration of the C8 scenario: maxSize 3, maxTime
1000. -/
def c8Buffer0 : StreamBuffer :=
  { id := "b"
    config := ⟨3, 1000, .size, false⟩
    chunks := []
    createdAt := 0
    lastChunkTime := 0
    isActive := true
    totalChunksAdded := 0
    totalFlushes := 0 }

/-- First scenario chunk, content a. -/
def c8a : Chunk := ⟨"a1", "a", 0, 1, false⟩

/-- Second scenario chunk, content b. -/
def c8b : Chunk := ⟨"b1", "b", 1, 2, false⟩

/-- Third scenario chunk, content c. -/
def c8c : Chunk := ⟨"c1", "c", 2, 3, true⟩

/-- State after adding the first scenario chunk. -/
def c8Step1 : AddChunkStep := c8Buffer0.addChunk c8a 1

/-- State after adding the second scenario chunk. -/
def c8Step2 : AddChunkStep := c8Step1.state.addChunk c8b 2

/-- State after adding the third scenario chunk. -/
def c8Step3 : AddChunkStep := c8Step2.state.addChunk c8c 3

/-- C8: under strategy size, addChunk on an active buffer signals
shouldFlush with reason size exactly when the post-add chunk count reaches
maxSize, and never earlier; in the concrete scenario (maxSize 3, chunks
a, b, c) the first two adds do not signal, the third signals with reason
size, and the subsequent flush returns exactly [a, b, c] in order, leaving
the buffer empty. -/
theorem c8_size_strategy :
    (∀ (s : StreamBuffer) (c : Chunk) (now : Nat),
      s.isActive = true → s.config.strategy = .size →
      ((s.addChunk c now).result.shouldFlush = true ↔
        s.chunks.length + 1 ≥ s.config.maxSize) ∧
      ((s.addChunk c now).result.shouldFlush = true →
        (s.addChunk c now).result.flushReason = some .size)) ∧
    (c8Step1.result.shouldFlush = false ∧
     c8Step2.result.shouldFlush = false ∧
     c8Step3.result.shouldFlush = true ∧
     c8Step3.result.flushReason = some .size ∧
     (c8Step3.state.flush idPipeline).2 = .ok [c8a, c8b, c8c] ∧
     (c8Step3.state.flush idPipeline).1.chunks = []) := by
  constructor
  · intro s c now hA hS
    by_cases h : s.chunks.length + 1 ≥ s.config.maxSize
    · constructor
      · simp [StreamBuffer.addChunk, StreamBuffer.shouldFlush, hA, hS, h]
      · intro _
        simp [StreamBuffer.addChunk, StreamBuffer.shouldFlush, hA, hS, h]
    · constructor
      · simp [StreamBuffer.addChunk, StreamBuffer.shouldFlush, hA, hS, h]
      · intro hcontra
        exfalso
        have : (s.addChunk c now).result.shouldFlush = false := by
          simp [StreamBuffer.addChunk, StreamBuffer.shouldFlush, hA, hS, h]
        rw [this] at hcontra
        exact Bool.false_ne_true hcontra
  · exact ⟨rfl, rfl, rfl, rfl, rfl, rfl⟩

/-- C8: witness for the universally quantified part, at the third scenario
step. -/
theorem c8_witness :
    c8Step2.state.isActive = true ∧ c8Step2.state.config.strategy = .size ∧
    ((c8Step2.state.addChunk c8c 3).result.shouldFlush = true ↔
      c8Step2.state.chunks.length + 1 ≥ c8Step2.state.config.maxSize) :=
  ⟨rfl, rfl, (c8_size_strategy.1 c8Step2.state c8c 3 rfl rfl).1⟩

end ClaimC8

section ClaimC10

/-- C10: a paused or destroyed buffer silently drops chunks: addChunk and
addChunks on an inactive buffer return shouldFlush false with zero buffered
chunks and no flush reason, schedule nothing, and leave the entire buffer
state (chunk list, counters, timestamps) untouched; pause and destroy are
exactly the operations that make a buffer inactive. -/
theorem c10_inactive_drop (s : StreamBuffer) (c : Chunk) (cs : List Chunk)
    (now : Nat) (h : s.isActive = false) :
    s.addChunk c now = ⟨s, ⟨false, none, 0⟩, false⟩ ∧
    s.addChunks cs now = ⟨s, ⟨false, none, 0⟩, false⟩ ∧
    s.pause.isActive = false ∧
    (s.destroy).1.isActive = false := by
  refine ⟨?_, ?_, rfl, rfl⟩
  · simp [StreamBuffer.addChunk, h]
  · simp [StreamBuffer.addChunks, h]

/-- C10: witness on a concrete paused buffer. -/
theorem c10_witness :
    c2TimeBuffer.pause.isActive = false ∧
    c2TimeBuffer.pause.addChunk c2Chunk2 120
      = ⟨c2TimeBuffer.pause, ⟨false, none, 0⟩, false⟩ :=
  ⟨rfl, (c10_inactive_drop c2TimeBuffer.pause c2Chunk2 [] 120 rfl).1⟩

end ClaimC10

section ClaimC1

/-- Two registrations on one event: a one-shot hook a followed by a hook b
that increments the payload. -/
def c1Regs : List (HookReg Nat) :=
  [{ id := "a", priority := 0, oneTime := true, timeoutMs := none,
     run := fun _ => .ok none },
   { id := "b", priority := 10, oneTime := false, timeoutMs := none,
     run := fun n => .ok (some (n + 1)) }]

/-- C1: counterexample.  Both registrations of c1Regs are present when the
dispatch starts, and neither fails; under the snapshot semantics the dispatch
would run both hooks (dispatchSnapshot executes a then b and returns payload
1).  The engine, however, iterates the live registration array: when the
one-shot hook a completes, its wrapper unregisters it, the array shifts, and
the for-of index skips b entirely — the dispatch executes only a, reports no
error for b, and leaves the payload at 0.  A registered hook is therefore
skipped, refuting the claim. -/
theorem c1_counterexample :
    (executeHooks c1Regs 0).executedIds = ["a"] ∧
    (executeHooks c1Regs 0).errors = [] ∧
    (executeHooks c1Regs 0).modifiedData = 0 ∧
    (dispatchSnapshot c1Regs 0).2.1 = ["a", "b"] ∧
    (dispatchSnapshot c1Regs 0).1 = 1 :=
  ⟨rfl, rfl, rfl, rfl, rfl⟩

/-- C1 (amended): dispatch iterates the live registration array, not a
snapshot, so a one-shot hook that unregisters itself mid-dispatch shifts the
array and the registration after it is skipped.  Only when no registration is
removed mid-dispatch — in particular when no registration is one-shot — does
dispatch behave as the claim states: the registry is left exactly as it was
at dispatch start, every registration present at dispatch start is accounted
for (one executed or one failed entry each), and no registered hook is
skipped. -/
theorem c1_amended {P : Type} (regs : List (HookReg P)) (p : P)
    (hone : ∀ r ∈ regs, r.oneTime = false) :
    (executeHooks regs p).finalRegs = regs ∧
    (executeHooks regs p).executedIds.length + (executeHooks regs p).errors.length
      = regs.length ∧
    ∀ r ∈ regs, r.id ∈ (executeHooks regs p).executedIds ∨
      r.id ∈ (executeHooks regs p).errors.map HookError.hookId := by
  rw [executeHooks_eq_snapshot regs p hone]
  exact ⟨rfl, dispatchSnapshot_length regs p, dispatchSnapshot_mem regs p⟩

/-- Two one-shot-free registrations used to witness the amended C1. -/
def c1WRegs : List (HookReg Nat) :=
  [{ id := "f", priority := 0, oneTime := false, timeoutMs := none,
     run := fun n => .ok (some (n + 1)) },
   { id := "g", priority := 10, oneTime := false, timeoutMs := none,
     run := fun _ => .err .thrown }]

/-- C1: witness for the amended theorem on a concrete one-shot-free
registry. -/
theorem c1_witness :
    (∀ r ∈ c1WRegs, r.oneTime = false) ∧
    ((executeHooks c1WRegs 0).finalRegs = c1WRegs ∧
     (executeHooks c1WRegs 0).executedIds.length
       + (executeHooks c1WRegs 0).errors.length = c1WRegs.length ∧
     ∀ r ∈ c1WRegs, r.id ∈ (executeHooks c1WRegs 0).executedIds ∨
       r.id ∈ (executeHooks c1WRegs 0).errors.map HookError.hookId) := by
  have h : ∀ r ∈ c1WRegs, r.oneTime = false := by
    intro r hr
    simp only [c1WRegs, List.mem_cons, List.mem_singleton] at hr
    rcases hr with h | h | h
    · rw [h]
    · rw [h]
    · exact absurd h (by simp)
  exact ⟨h, c1_amended c1WRegs 0 h⟩

end ClaimC1

section ClaimC4

/-- Two registrations on one event: a one-shot hook x that throws, followed
by a later-priority hook b. -/
def c4Regs : List (HookReg Nat) :=
  [{ id := "x", priority := 0, oneTime := true, timeoutMs := none,
     run := fun _ => .err .thrown },
   { id := "b", priority := 10, oneTime := false, timeoutMs := none,
     run := fun n => .ok (some (n + 1)) }]

/-- C4: counterexample.  In the dispatch over c4Regs the hook x throws, and
the claim asserts that every later hook by priority still runs; hook b has
later priority, yet it never runs: the throwing one-shot hook unregisters
itself from the live array before the loop advances, the array shifts, and b
is skipped — the executed list is empty and the payload is unchanged.  The
failed list does contain exactly the failing id x, but the continuation
guarantee is refuted. -/
theorem c4_counterexample :
    (executeHooks c4Regs 0).errors = [⟨"x", false⟩] ∧
    (executeHooks c4Regs 0).executedIds = [] ∧
    (executeHooks c4Regs 0).modifiedData = 0 :=
  ⟨rfl, rfl, rfl⟩

/-- C4 (amended): provided the registration list is not mutated mid-dispatch
— no registration is one-shot — the engine realises the snapshot dispatch
semantics exactly: a hook that throws never prevents any later hook from
running, the error list collects exactly the failing ids in order, the
payload pipeline continues across failures, and dispatch returns a normal
report rather than propagating any hook exception. -/
theorem c4_amended {P : Type} (regs : List (HookReg P)) (p : P)
    (hone : ∀ r ∈ regs, r.oneTime = false) :
    executeHooks regs p =
      { finalRegs := regs
        modifiedData := (dispatchSnapshot regs p).1
        executedIds := (dispatchSnapshot regs p).2.1
        errors := (dispatchSnapshot regs p).2.2
        hookCount := regs.length } :=
  executeHooks_eq_snapshot regs p hone

/-- Registrations for the C4 witness: a throwing hook then a succeeding
hook, neither one-shot. -/
def c4WRegs : List (HookReg Nat) :=
  [{ id := "boom", priority := 0, oneTime := false, timeoutMs := none,
     run := fun _ => .err .thrown },
   { id := "next", priority := 50, oneTime := false, timeoutMs := none,
     run := fun n => .ok (some (n + 2)) }]

/-- C4: witness — dispatch over a concrete one-shot-free registry with a
throwing hook matches the snapshot semantics, and the later hook did run. -/
theorem c4_witness :
    (∀ r ∈ c4WRegs, r.oneTime = false) ∧
    executeHooks c4WRegs 1 =
      { finalRegs := c4WRegs
        modifiedData := (dispatchSnapshot c4WRegs 1).1
        executedIds := (dispatchSnapshot c4WRegs 1).2.1
        errors := (dispatchSnapshot c4WRegs 1).2.2
        hookCount := c4WRegs.length } ∧
    (dispatchSnapshot c4WRegs 1).2.1 = ["next"] ∧
    (dispatchSnapshot c4WRegs 1).2.2 = [⟨"boom", false⟩] ∧
    (dispatchSnapshot c4WRegs 1).1 = 3 := by
  have h : ∀ r ∈ c4WRegs, r.oneTime = false := by
    intro r hr
    simp only [c4WRegs, List.mem_cons, List.mem_singleton] at hr
    rcases hr with h | h | h
    · rw [h]
    · rw [h]
    · exact absurd h (by simp)
  exact ⟨h, c4_amended c4WRegs 1 h, rfl, rfl, rfl⟩

end ClaimC4

section ClaimC5

/-- C5: after any sequence of register calls the registration list is
ordered by non-decreasing priority with ties in registration order (the
counter-assigned sequence numbers strictly increase among equal priorities),
it contains exactly the registered hooks, and a subsequent dispatch invokes
the hooks in exactly that list order. -/
theorem c5_priority_order (ps : List Int) :
    List.Pairwise regOrdered (registerAll ps).regs ∧
    (registerAll ps).regs.Perm (arrivalsFrom 1 ps) ∧
    (executeHooks ((registerAll ps).regs.map toEngineReg) ()).executedIds
      = (registerAll ps).regs.map (fun e => "hook-" ++ toString e.seq) := by
  have h0 : List.Pairwise regOrdered ([] : List RegEntry) := List.Pairwise.nil
  have hs0 : ∀ e ∈ ([] : List RegEntry), e.seq < 1 := by simp
  rcases registerAll_go ps ⟨[], 1⟩ h0 hs0 with ⟨g1, _, g3, _⟩
  refine ⟨g1, by simpa using g3, ?_⟩
  have hone : ∀ r ∈ (registerAll ps).regs.map toEngineReg, r.oneTime = false := by
    intro r hr
    rcases List.mem_map.mp hr with ⟨e, _, he⟩
    rw [← he]
    rfl
  rw [executeHooks_eq_snapshot _ _ hone]
  simp [dispatchSnapshot_engineRegs]

end ClaimC5

section ClaimC6

/-- A registration with a 10 ms budget whose callback loses the timeout race
(it would return a value, but the race has already rejected). -/
def c6Slow : HookReg Nat :=
  { id := "slow", priority := 0, oneTime := false, timeoutMs := some 10,
    run := fun _ => .err .timeout }

/-- A later hook that adds 7 to the payload, to observe what payload reaches
the hook after the timed-out one. -/
def c6Next : List (HookReg Nat) :=
  [{ id := "next", priority := 100, oneTime := false, timeoutMs := none,
     run := fun n => .ok (some (n + 7)) }]

/-- C6: when the first hook of a dispatch carries a timeoutMs budget and its
invocation times out, the dispatch records that hook as failed with the
timeout kind, discards any late return value (the timeout outcome carries
none), and proceeds through the remaining hooks with the payload exactly as
it stood before the timed-out hook ran — the remainder of the dispatch is
the snapshot dispatch of the rest on the unchanged payload. -/
theorem c6_timeout {P : Type} (t : HookReg P) (post : List (HookReg P)) (p : P)
    (d : Nat) (ht : t.timeoutMs = some d) (hone : t.oneTime = false)
    (hrun : t.run p = .err .timeout)
    (hpost : ∀ r ∈ post, r.oneTime = false) :
    executeHooks (t :: post) p =
      { finalRegs := t :: post
        modifiedData := (dispatchSnapshot post p).1
        executedIds := (dispatchSnapshot post p).2.1
        errors := ⟨t.id, true⟩ :: (dispatchSnapshot post p).2.2
        hookCount := post.length + 1 } := by
  have hall : ∀ r ∈ t :: post, r.oneTime = false := by
    intro r hr
    rcases List.mem_cons.mp hr with h | h
    · exact h ▸ hone
    · exact hpost r h
  rw [executeHooks_eq_snapshot _ _ hall]
  simp only [dispatchSnapshot, hrun, List.length_cons]
  rfl

/-- C6: witness — concrete dispatch where the timed-out hook is reported
failed with timeout kind and the next hook receives the original payload. -/
theorem c6_witness :
    c6Slow.timeoutMs = some 10 ∧ c6Slow.oneTime = false ∧
    c6Slow.run 0 = .err .timeout ∧
    executeHooks (c6Slow :: c6Next) 0 =
      { finalRegs := c6Slow :: c6Next
        modifiedData := (dispatchSnapshot c6Next 0).1
        executedIds := (dispatchSnapshot c6Next 0).2.1
        errors := ⟨c6Slow.id, true⟩ :: (dispatchSnapshot c6Next 0).2.2
        hookCount := c6Next.length + 1 } ∧
    (dispatchSnapshot c6Next (0 : Nat)).1 = 7 := by
  have h : ∀ r ∈ c6Next, r.oneTime = false := by
    intro r hr
    simp only [c6Next, List.mem_singleton] at hr
    rw [hr]
  exact ⟨rfl, rfl, rfl, c6_timeout c6Slow c6Next 0 10 rfl rfl rfl h, rfl⟩

end ClaimC6

section ClaimC9

/-- A buffer entry created at time 0 whose last activity is time 200: at
observation time 200 it is not idle at all, but its total age is 200. -/
def c9Active : BufferEntry := ⟨"b1", 0, 200⟩

/-- Manager at capacity: one buffer, maxBuffers 1, cleanupAge 100. -/
def c9M : BufferManagerState := ⟨[c9Active], 1, 100⟩

/-- C9: counterexample.  The claim says the eviction pass removes only
buffers idle beyond the cleanup age.  At time 200 the buffer of c9M has idle
time 0 (its last activity is 200), so under the claim the pass frees no slot
and the create of a second buffer must fail with the capacity error.  The
code, however, also evicts by total age (age 200 exceeds cleanupAge 100) —
and in general already by idle time exceeding half the cleanup age — so the
pass frees the slot and the create succeeds. -/
theorem c9_counterexample :
    createBuffer c9M "b2" 200 = .ok ⟨[⟨"b2", 200, 200⟩], 1, 100⟩ ∧
    ¬ (200 - c9Active.lastActivity > c9M.cleanupAge) :=
  ⟨rfl, by decide⟩

/-- C9 (amended): createBuffer rejects a duplicate id first; at capacity it
runs one cleanup pass which keeps exactly the buffers whose total age is at
most cleanupAge and whose idle time is at most half the cleanup age, and it
fails with the capacity error exactly when the pass leaves the manager still
at capacity.  With maxBuffers 1 the claimed scenario holds: a second create
succeeds while the existing buffer is idle beyond the cleanup age, and fails
with the capacity error while it is active (young and recently active). -/
theorem c9_amended :
    (∀ (m : BufferManagerState) (id : String) (now : Nat),
      createBuffer m id now = .error .duplicate ↔
        m.buffers.any (fun b => b.id == id) = true) ∧
    (∀ (m : BufferManagerState) (b : BufferEntry) (now : Nat),
      b ∈ (cleanup m now).buffers ↔
        b ∈ m.buffers ∧ now - b.createdAt ≤ m.cleanupAge ∧
          now - b.lastActivity ≤ m.cleanupAge / 2) ∧
    (∀ (m : BufferManagerState) (id : String) (now : Nat),
      m.buffers.any (fun b => b.id == id) = false →
      m.buffers.length ≥ m.maxBuffers →
      (createBuffer m id now = .error .capacity ↔
        (cleanup m now).buffers.length ≥ m.maxBuffers)) ∧
    (∀ (b : BufferEntry) (id2 : String) (now cA : Nat),
      (b.id == id2) = false → now - b.lastActivity > cA →
      createBuffer ⟨[b], 1, cA⟩ id2 now = .ok ⟨[⟨id2, now, now⟩], 1, cA⟩) ∧
    (∀ (b : BufferEntry) (id2 : String) (now cA : Nat),
      (b.id == id2) = false → now - b.createdAt ≤ cA →
      now - b.lastActivity ≤ cA / 2 →
      createBuffer ⟨[b], 1, cA⟩ id2 now = .error .capacity) := by
  refine ⟨?_, ?_, ?_, ?_, ?_⟩
  · intro m id now
    by_cases hdup : m.buffers.any (fun b => b.id == id) = true
    · simp [createBuffer, hdup]
    · by_cases hcap : m.buffers.length ≥ m.maxBuffers
      · by_cases h2 : (cleanup m now).buffers.length ≥ m.maxBuffers
        · simp [createBuffer, hdup, hcap, h2]
        · simp [createBuffer, hdup, hcap, h2]
      · simp [createBuffer, hdup, hcap]
  · intro m b now
    simp only [cleanup, List.mem_filter, Bool.not_eq_true', Bool.or_eq_false_iff,
      decide_eq_false_iff_not, not_lt, evictTest]
  · intro m id now hdup hcap
    by_cases h2 : (cleanup m now).buffers.length ≥ m.maxBuffers
    · simp [createBuffer, hdup, hcap, h2]
    · simp [createBuffer, hdup, hcap, h2]
  · intro b id2 now cA hid hidle
    have h2 : cA / 2 < now - b.lastActivity := by omega
    simp [createBuffer, cleanup, evictTest, hid, h2]
  · intro b id2 now cA hid hage hidle
    have h1 : ¬ (cA < now - b.createdAt) := by omega
    have h2 : ¬ (cA / 2 < now - b.lastActivity) := by omega
    simp [createBuffer, cleanup, evictTest, hid, h1, h2]

/-- C9: witness for the amended theorem — concrete success when the only
buffer is idle beyond the cleanup age, and concrete capacity error while it
is active. -/
theorem c9_witness :
    ((("a" : String) == "b") = false ∧ (300 : Nat) - 0 > 100 ∧
      createBuffer ⟨[⟨"a", 0, 0⟩], 1, 100⟩ "b" 300 = .ok ⟨[⟨"b", 300, 300⟩], 1, 100⟩) ∧
    ((("a" : String) == "b") = false ∧ (10 : Nat) - 0 ≤ 100 ∧ (10 : Nat) - 0 ≤ 100 / 2 ∧
      createBuffer ⟨[⟨"a", 0, 0⟩], 1, 100⟩ "b" 10 = .error .capacity) := by
  refine ⟨⟨by decide, by decide, ?_⟩, ⟨by decide, by decide, by decide, ?_⟩⟩
  · exact c9_amended.2.2.2.1 ⟨"a", 0, 0⟩ "b" 300 100 (by decide) (by decide)
  · exact c9_amended.2.2.2.2 ⟨"a", 0, 0⟩ "b" 10 100 (by decide) (by decide) (by decide)

end ClaimC9

end LLMHooks
